import Mathlib

/-!
Verification of the Flow-Volume Averaging engine (FVAvg) of the LOOPAVGER
repository against its natural-language specification.

The Python sources are shallowly embedded over `ℚ` (the program computes with
IEEE doubles; all claims under scrutiny are about exact algebraic structure, so
exact rationals are the faithful idealisation).  Python lists become `List ℚ`,
Python exceptions become `Except`/totalised defaults, and Python list indexing
(including its negative-index wraparound) is modelled explicitly.  Each
definition carries a note naming the source function and lines it embeds.
-/

namespace FVAvg

/-- Python list read `l[i]` for a possibly negative index `i`: a negative index
wraps around to `len l + i`; the read fails (raises IndexError) only when the
index is out of range after that adjustment.  Models the semantics relied on
by `fvavg.py` line 53 and line 109 (`flow_raw_list[i - j]`). -/
def pyIdx (l : List ℚ) (i : ℤ) : Option ℚ :=
  if 0 ≤ i then l.get? i.toNat
  else if 0 ≤ i + l.length then l.get? (i + l.length).toNat
  else none

/-- Python list read with the failure case mapped to `0`; used where the code
wraps the read in `try ... except IndexError: pass` so that a failed read
contributes nothing to a running sum. -/
def pyIdxD (l : List ℚ) (i : ℤ) : ℚ :=
  (pyIdx l i).getD 0

/-- State of the scan in `find_zero_flow_points` (fvavg.py lines 34-39):
the three output lists built so far, the running per-phase sample counter
`phase_indexes`, and the list of closed phase lengths. -/
structure ZState where
  times : List ℚ
  vols : List ℚ
  flows : List ℚ
  phaseIdx : ℕ
  phaseList : List ℕ
deriving Repr, DecidableEq

/-- Forward check for a negative-to-positive candidate crossing at `i`
(fvavg.py lines 46-49): the number of indices `i+2 .. i+31` holding a strictly
positive flow; validation later requires this count to be 30. -/
def fwdCountNegToPos (flow : List ℚ) (i : ℕ) : ℕ :=
  ((List.range 30).filter fun j => 0 < flow.getD (i + 2 + j) 0).length

/-- Forward check for a positive-to-negative candidate crossing at `i`
(fvavg.py lines 102-105): the number of indices `i+2 .. i+31` holding a
strictly negative flow. -/
def fwdCountPosToNeg (flow : List ℚ) (i : ℕ) : ℕ :=
  ((List.range 30).filter fun j => flow.getD (i + 2 + j) 0 < 0).length

/-- Backward check value at `i` (fvavg.py lines 50-57 and 106-113): the sum of
`flow[i - j]` for `j = 41 .. 60` divided by 20, where each read uses Python
index semantics (`pyIdxD`): a negative index wraps to the end of the list, and
only an index below `-(len flow)` raises the IndexError that the code catches
and skips. -/
def backTrack (flow : List ℚ) (i : ℕ) : ℚ :=
  (((List.range 20).map fun j => pyIdxD flow ((i : ℤ) - (41 + j))).sum) / 20

/-- Append the sample at index `i` to all three output lists and advance the
phase counter: the `else` arms of the scan (fvavg.py lines 93-98, 149-154,
155-160). -/
def stdAppend (time vol flow : List ℚ) (i : ℕ) (s : ZState) : ZState :=
  { s with
    times := s.times ++ [time.getD i 0]
    vols := s.vols ++ [vol.getD i 0]
    flows := s.flows ++ [flow.getD i 0]
    phaseIdx := s.phaseIdx + 1 }

/-- The `except IndexError` arm of the scan (fvavg.py lines 162-167): append
the final sample of each input list (Python `list[-1]`). -/
def lastAppend (time vol flow : List ℚ) (s : ZState) : ZState :=
  { s with
    times := s.times ++ [pyIdxD time (-1)]
    vols := s.vols ++ [pyIdxD vol (-1)]
    flows := s.flows ++ [pyIdxD flow (-1)]
    phaseIdx := s.phaseIdx + 1 }

/-- Interpolated zero-crossing time (fvavg.py line 75 and line 131):
`t1 + (0 - f1) / ((f2 - f1) / (t2 - t1))`.  Division is total on `ℚ`; the
code would raise ZeroDivisionError for coincident sample times, a case the
uniformly sampled inputs exclude. -/
def interpTime (t1 t2 f1 f2 : ℚ) : ℚ :=
  t1 + (0 - f1) / ((f2 - f1) / (t2 - t1))

/-- The validated-crossing arm (fvavg.py lines 60-92 and 116-148): append the
pre-crossing sample, then the two synthetic points (interpolated time twice,
nudged volume `vStar` twice, flow 0 twice); close the current phase with two
extra counts and start the next phase at count 1. -/
def validAppend (time vol flow : List ℚ) (i : ℕ) (vStar : ℚ) (s : ZState) : ZState :=
  let t1 := time.getD i 0
  let t2 := time.getD (i + 1) 0
  let f1 := flow.getD i 0
  let f2 := flow.getD (i + 1) 0
  let tStar := interpTime t1 t2 f1 f2
  { times := s.times ++ [t1, tStar, tStar]
    vols := s.vols ++ [vol.getD i 0, vStar, vStar]
    flows := s.flows ++ [f1, 0, 0]
    phaseIdx := 1
    phaseList := s.phaseList ++ [s.phaseIdx + 2] }

/-- One iteration of the scan of `find_zero_flow_points` (fvavg.py lines
42-167) at index `i`.  When `i` is the last index the read of `flow[i+1]`
raises and the except arm runs (for a zero flow at the last index the code
takes the plain else arm instead, which appends the same three values, so the
effect coincides).  When a candidate crossing sits fewer than 31 samples from
the end, the forward loop read raises before anything was appended, and the
except arm runs. -/
def zcStep (time vol flow : List ℚ) (s : ZState) (i : ℕ) : ZState :=
  let n := flow.length
  if n ≤ i + 1 then lastAppend time vol flow s
  else
    let fi := flow.getD i 0
    let fi1 := flow.getD (i + 1) 0
    if fi < 0 ∧ 0 < fi1 then
      if n ≤ i + 31 then lastAppend time vol flow s
      else if fwdCountNegToPos flow i = 30 ∧ backTrack flow i < 0 then
        validAppend time vol flow i
          (min (vol.getD i 0) (vol.getD (i + 1) 0) - 1 / 1000) s
      else stdAppend time vol flow i s
    else if 0 < fi ∧ fi1 < 0 then
      if n ≤ i + 31 then lastAppend time vol flow s
      else if fwdCountPosToNeg flow i = 30 ∧ 0 < backTrack flow i then
        validAppend time vol flow i
          (max (vol.getD i 0) (vol.getD (i + 1) 0) + 1 / 1000) s
      else stdAppend time vol flow i s
    else stdAppend time vol flow i s

/-- `find_zero_flow_points` (fvavg.py lines 22-169): scan all indices of the
flow list, returning the augmented time, volume and flow lists and the list of
closed phase lengths. -/
def findZeroFlowPoints (time vol flow : List ℚ) :
    List ℚ × List ℚ × List ℚ × List ℕ :=
  let s := (List.range flow.length).foldl (zcStep time vol flow) ⟨[], [], [], 0, []⟩
  (s.times, s.vols, s.flows, s.phaseList)

/-- The single way a run of the trimmer aborts: a Python IndexError raised by
an out-of-range list access.  The specification names the trimmer's failure
mode NoFullBreath; in the code it surfaces as this uncaught IndexError, which
aborts the current run. -/
inductive PyErr where
  | indexError
deriving Repr, DecidableEq

/-- Leading trim loop of `trim_excess_data` (fvavg.py lines 202-210), acting on
the flow, volume and time lists with the running `counter_start`.  Each
iteration inspects `flow[0]` and (when `flow[0] = 0`) `flow[2]`; it stops by
deleting one more head sample when `flow[0] = 0` and `flow[2] < 0`, increments
the counter by one half when `flow[0] = 0` and `flow[2] > 0`, and otherwise
just deletes the head sample from all three lists.  Exhausting any list raises
IndexError. -/
def trimLead : List ℚ → List ℚ → List ℚ → ℚ →
    Except PyErr (List ℚ × List ℚ × List ℚ × ℚ)
  | f0 :: fs, _ :: vs, _ :: ts, c =>
    if f0 = 0 then
      match fs with
      | _ :: f2 :: _ =>
        if f2 < 0 then .ok (fs, vs, ts, c)
        else trimLead fs vs ts (if 0 < f2 then c + 1 / 2 else c)
      | _ => .error .indexError
    else trimLead fs vs ts c
  | _, _, _, _ => .error .indexError

/-- Trailing trim loop of `trim_excess_data` (fvavg.py lines 213-223), stated
on the reversed lists so that Python `list[-1]` is the head and `list[-3]` the
third element.  It stops by deleting three more tail samples when
`flow[-3] = 0` and `flow[-1] < 0`, increments `counter_end` by one half when
`flow[-3] = 0` and `flow[-1] > 0`, and otherwise deletes the tail sample of
all three lists.  Exhausting any list raises IndexError. -/
def trimTailRev : List ℚ → List ℚ → List ℚ → ℚ →
    Except PyErr (List ℚ × List ℚ × List ℚ × ℚ)
  | f1 :: f2 :: f3 :: fs, _ :: v2 :: v3 :: vs, _ :: t2 :: t3 :: ts, c =>
    if f3 = 0 ∧ f1 < 0 then .ok (fs, vs, ts, c)
    else
      trimTailRev (f2 :: f3 :: fs) (v2 :: v3 :: vs) (t2 :: t3 :: ts)
        (if f3 = 0 ∧ 0 < f1 then c + 1 / 2 else c)
  | _, _, _, _ => .error .indexError

/-- Python `del l[0]`: fails on an empty list. -/
def delHead {α : Type} : List α → Except PyErr (List α)
  | [] => .error .indexError
  | _ :: t => .ok t

/-- Python `del l[-1]`: fails on an empty list. -/
def delLast {α : Type} : List α → Except PyErr (List α)
  | [] => .error .indexError
  | l => .ok l.dropLast

/-- Phase-length adjustment of `trim_excess_data` (fvavg.py lines 226-233):
delete the first entry when `counter_start == 1`, the first two when
`counter_start == 2` (and none otherwise); delete the last entry when
`counter_end == 1`. -/
def adjustPhaseList (cs ce : ℚ) (pl : List ℕ) : Except PyErr (List ℕ) := do
  let pl1 ←
    if cs = 1 then delHead pl
    else if cs = 2 then do delHead (← delHead pl)
    else .ok pl
  if ce = 1 then delLast pl1 else .ok pl1

/-- `trim_excess_data` (fvavg.py lines 188-238): run the leading trim, the
trailing trim, adjust the phase-length list by the counters, and return the
trimmed lists together with `int(len(phase_indexes_list) / 2)` as the number
of breaths. -/
def trimExcessData (t v f : List ℚ) (pl : List ℕ) :
    Except PyErr (List ℚ × List ℚ × List ℚ × List ℕ × ℕ) := do
  let (f1, v1, t1, cs) ← trimLead f v t 1
  let (fr, vr, tr, ce) ← trimTailRev f1.reverse v1.reverse t1.reverse 0
  let pl2 ← adjustPhaseList cs ce pl
  .ok (tr.reverse, vr.reverse, fr.reverse, pl2, pl2.length / 2)

/-- One monotone phase of a breath, peeled off the trimmed augmented lists by
`process_time_bins` (time_bins.py lines 47-107). -/
structure RawPhase where
  times : List ℚ
  vols : List ℚ
  flows : List ℚ
deriving Repr, DecidableEq, Inhabited

/-- Extract one phase of `n` samples from the front of the running lists
(time_bins.py lines 48-73 and 79-104): the first `n` times shifted so the
phase starts at 0, the first `n` volumes and flows unchanged; the rest is kept
for the next phase. -/
def takePhase (n : ℕ) (ts vs fs : List ℚ) :
    RawPhase × List ℚ × List ℚ × List ℚ :=
  let t0 := ts.headD 0
  (⟨(ts.take n).map (fun x => x - t0), vs.take n, fs.take n⟩,
   ts.drop n, vs.drop n, fs.drop n)

/-- The per-breath peeling loop of `process_time_bins` (time_bins.py lines
40-107): for each of `b` breaths consume two phase-length entries and the
corresponding samples.  The Python code would raise on a phase-length list or
sample list that is too short; there the embedding takes 0-length phases. -/
def splitBreaths : ℕ → List ℚ → List ℚ → List ℚ → List ℕ →
    List (RawPhase × RawPhase)
  | 0, _, _, _, _ => []
  | b + 1, ts, vs, fs, pl =>
    let n1 := pl.headD 0
    let (ip, ts1, vs1, fs1) := takePhase n1 ts vs fs
    let pl1 := pl.tail
    let n2 := pl1.headD 0
    let (ep, ts2, vs2, fs2) := takePhase n2 ts1 vs1 fs1
    (ip, ep) :: splitBreaths b ts2 vs2 fs2 pl1.tail

/-- Phase duration `Tt` (time_bins.py lines 118-119): the last relative time
of the phase, Python `Insp_Time[-1]`. -/
def phaseTt (p : RawPhase) : ℚ :=
  p.times.getLastD 0

/-- Phase tidal volume `Vt` (time_bins.py lines 120-123):
`abs(vol[-1] - vol[0])`. -/
def phaseVt (p : RawPhase) : ℚ :=
  |p.vols.getLastD 0 - p.vols.headD 0|

/-- Equally spaced time targets (time_bins.py lines 126-136):
`(Tt / intervals) * j` for `j = 0 .. intervals`. -/
def tbinTargets (tt : ℚ) (k : ℕ) : List ℚ :=
  (List.range (k + 1)).map fun j => tt / k * j

/-- Linear interpolation `y1 + (y2 - y1) / (t2 - t1) * (τ - t1)`
(time_bins.py lines 158-159 and 191-192). -/
def lerp (t1 t2 y1 y2 τ : ℚ) : ℚ :=
  y1 + (y2 - y1) / (t2 - t1) * (τ - t1)

/-- Inner scan of the inspiration time-bin interpolation for one target `τ`,
starting at segment index `l` (time_bins.py lines 144-170): returns the
(volume, flow) pairs appended for this target.  Branches in source order:
`τ = 0` returns the first sample; a strict bracket interpolates; the read of
`times[l+1]` at the last index raises and the except arm appends the sample at
`l` without breaking (the loop then ends); `τ` equal to the last time returns
the last sample; otherwise the scan moves on.  A target equal to an interior
sample time matches no branch and the scan can end with no pair. -/
def tbinScanInsp (ts vs fs : List ℚ) (τ : ℚ) (l : ℕ) : List (ℚ × ℚ) :=
  if h : ts.length ≤ l then []
  else if τ = 0 then [(vs.headD 0, fs.headD 0)]
  else if ts.getD l 0 < τ then
    if ts.length ≤ l + 1 then [(vs.getD l 0, fs.getD l 0)]
    else if τ < ts.getD (l + 1) 0 then
      [(lerp (ts.getD l 0) (ts.getD (l + 1) 0) (vs.getD l 0) (vs.getD (l + 1) 0) τ,
        lerp (ts.getD l 0) (ts.getD (l + 1) 0) (fs.getD l 0) (fs.getD (l + 1) 0) τ)]
    else if τ = ts.getLastD 0 then [(vs.getLastD 0, fs.getLastD 0)]
    else tbinScanInsp ts vs fs τ (l + 1)
  else if τ = ts.getLastD 0 then [(vs.getLastD 0, fs.getLastD 0)]
  else tbinScanInsp ts vs fs τ (l + 1)
termination_by ts.length - l
decreasing_by
  all_goals omega

/-- Inner scan of the expiration time-bin interpolation for one target
(time_bins.py lines 177-203); identical to the inspiration scan except that
the endpoint branch tests `τ / times[-1] = 1` (line 197) instead of equality
with the last time. -/
def tbinScanExp (ts vs fs : List ℚ) (τ : ℚ) (l : ℕ) : List (ℚ × ℚ) :=
  if h : ts.length ≤ l then []
  else if τ = 0 then [(vs.headD 0, fs.headD 0)]
  else if ts.getD l 0 < τ then
    if ts.length ≤ l + 1 then [(vs.getD l 0, fs.getD l 0)]
    else if τ < ts.getD (l + 1) 0 then
      [(lerp (ts.getD l 0) (ts.getD (l + 1) 0) (vs.getD l 0) (vs.getD (l + 1) 0) τ,
        lerp (ts.getD l 0) (ts.getD (l + 1) 0) (fs.getD l 0) (fs.getD (l + 1) 0) τ)]
    else if τ / ts.getLastD 0 = 1 then [(vs.getLastD 0, fs.getLastD 0)]
    else tbinScanExp ts vs fs τ (l + 1)
  else if τ / ts.getLastD 0 = 1 then [(vs.getLastD 0, fs.getLastD 0)]
  else tbinScanExp ts vs fs τ (l + 1)
termination_by ts.length - l
decreasing_by
  all_goals omega

/-- The six per-breath time-bin arrays (time_bins.py lines 206-211). -/
structure BreathBins where
  inspTime : List ℚ
  inspVol : List ℚ
  inspFlow : List ℚ
  expTime : List ℚ
  expVol : List ℚ
  expFlow : List ℚ
deriving Repr, DecidableEq, Inhabited

/-- Time-bin resampling of one phase (time_bins.py lines 126-170 for
inspiration): the target times, and the volume and flow values collected by
the inner scan, which appends the volume and the flow in lockstep. -/
def tbinPhaseInsp (p : RawPhase) (k : ℕ) : List ℚ × List ℚ × List ℚ :=
  let targets := tbinTargets (phaseTt p) k
  let pairs := targets.flatMap fun τ => tbinScanInsp p.times p.vols p.flows τ 0
  (targets, pairs.map Prod.fst, pairs.map Prod.snd)

/-- Time-bin resampling of one expiration phase (time_bins.py lines 132-136
and 172-203). -/
def tbinPhaseExp (p : RawPhase) (k : ℕ) : List ℚ × List ℚ × List ℚ :=
  let targets := tbinTargets (phaseTt p) k
  let pairs := targets.flatMap fun τ => tbinScanExp p.times p.vols p.flows τ 0
  (targets, pairs.map Prod.fst, pairs.map Prod.snd)

/-- Time-bin resampling of one breath (time_bins.py lines 125-211). -/
def tbinBreath (ip ep : RawPhase) (k : ℕ) : BreathBins :=
  let (it, iv, ifl) := tbinPhaseInsp ip k
  let (et, ev, efl) := tbinPhaseExp ep k
  ⟨it, iv, ifl, et, ev, efl⟩

/-- The un-normalised time-bin stage of the pipeline: zero-crossing scan,
trimming, phase peeling and time-bin resampling of every breath
(`process_fvavg`, fvavg.py lines 266-293, down to the `time_bin_copy` data of
time_bins.py line 214). -/
def pipelineTbin (t v f : List ℚ) (k : ℕ) : Except PyErr (List BreathBins) := do
  let (zt, zv, zf, pl) := findZeroFlowPoints t v f
  let (t1, v1, f1, pl1, b) ← trimExcessData zt zv zf pl
  .ok ((splitBreaths b t1 v1 f1 pl1).map fun pq => tbinBreath pq.1 pq.2 k)

/-- Backward-check value as the specification describes it: the sum of
`flow[i - j]` for `j = 41 .. 60` in which a term whose index underflows the
start of the recording contributes 0, divided by 20.  Comparison definition
following the words of the specification (section 4.2), to be measured
against `backTrack`, the value the code computes. -/
def backTrackSpec (flow : List ℚ) (i : ℕ) : ℚ :=
  (((List.range 20).map fun j =>
      if 41 + j ≤ i then flow.getD (i - (41 + j)) 0 else 0).sum) / 20

/-- Flow sequence with one candidate crossing at index 45: 46 samples at -1
followed by 31 samples at +1 (77 samples).  The forward check at 45 sees 30
positive samples; the backward window `45 - 41 .. 45 - 60` underflows after
five terms, and the wrapped reads hit the positive tail. -/
def flowC1 : List ℚ :=
  List.replicate 46 (-1) ++ List.replicate 31 1

/-- Time axis 0, 1, ..., 76 for `flowC1`. -/
def timeC1 : List ℚ :=
  (List.range 77).map fun j => (j : ℚ)

/-- Volume trace for `flowC1`: falling during the negative-flow samples and
rising afterwards (the running integral of the flow at unit steps). -/
def volC1 : List ℚ :=
  (List.range 77).map fun j => if j ≤ 46 then 100 - (j : ℚ) else 54 + (j : ℚ) - 46

/-- Raw recording A: a zero-flow first sample, then 70 samples at +1, 70 at
-1, 70 at +1 and 40 at -1 (251 samples).  The scan validates three crossings
(at indices 70, 140 and 210); the trimmer's leading loop passes the zero head
sample, where `flow[0] = 0` and `flow[2] > 0` adds one half, so
`counter_start` finishes at 3/2. -/
def rawFlowA : List ℚ :=
  [0] ++ List.replicate 70 1 ++ List.replicate 70 (-1) ++
    List.replicate 70 1 ++ List.replicate 40 (-1)

/-- Time axis 0, 1, ..., 250 for recording A. -/
def rawTimeA : List ℚ :=
  (List.range 251).map fun j => (j : ℚ)

/-- Volume trace for recording A; the trimmer and phase-length bookkeeping
never read it, any sequence of the right length serves. -/
def rawVolA : List ℚ :=
  (List.range 251).map fun j => (j : ℚ)

/-- The augmented lists and phase lengths of recording A. -/
def zeroedA : List ℚ × List ℚ × List ℚ × List ℕ :=
  findZeroFlowPoints rawTimeA rawVolA rawFlowA

/-- Raw recording B: 71 samples at +1, then 70 at -1, 70 at +1 and 40 at -1
(251 samples, three validated crossings, one whole breath after trimming).
The interpolated crossings sit at half-integer times, so the breath's relative
inspiration times are 0, 1/2, 3/2, ..., 139/2, 70: with `intervals = 4` the
targets 35/2 and 105/2 coincide with interior sample times and the time-bin
scan appends nothing for them. -/
def rawFlowB : List ℚ :=
  List.replicate 71 1 ++ List.replicate 70 (-1) ++
    List.replicate 70 1 ++ List.replicate 40 (-1)

/-- Time axis 0, 1, ..., 250 for recording B. -/
def rawTimeB : List ℚ :=
  (List.range 251).map fun j => (j : ℚ)

/-- Volume trace for recording B (the bin-count computation reads only its
length and endpoint ordering). -/
def rawVolB : List ℚ :=
  (List.range 251).map fun j => (200 : ℚ) - (j : ℚ)

/-- `statistics.mean` (time_bins.py lines 235-236): sum divided by length. -/
def pyMean (l : List ℚ) : ℚ :=
  l.sum / l.length

/-- Shift one breath (time_bins.py lines 219-230): subtract the last
inspiration bin volume from every inspiration bin and the first expiration
bin volume from every expiration bin (Python indexes `[-1]` and `[0]`, and
the subtraction loop indexes bins `0 .. intervals`); also return the two
subtracted values, whose running total feeds `Mean_shift`. -/
def shiftBreath (k : ℕ) (b : BreathBins) : BreathBins × ℚ :=
  let subI := b.inspVol.getLastD 0
  let subE := b.expVol.headD 0
  ({ b with
      inspVol := (List.range (k + 1)).map fun j => b.inspVol.getD j 0 - subI
      expVol := (List.range (k + 1)).map fun j => b.expVol.getD j 0 - subE },
   subI + subE)

/-- The shift pass and `Mean_shift` (time_bins.py lines 217-232): shift every
breath, and divide the accumulated subtracted values by twice the number of
breaths (the code divides by `number_of_breaths * 2`; the pipeline passes the
number of entries of the breath dictionary). -/
def meanShiftPass (k : ℕ) (bs : List BreathBins) : List BreathBins × ℚ :=
  let shifted := bs.map (shiftBreath k)
  (shifted.map Prod.fst, (shifted.map Prod.snd).sum / (bs.length * 2))

/-- Rescale one breath (time_bins.py lines 238-246): each inspiration bin
volume is divided by the breath's own `Vt_Insp` and multiplied by the average
inspiratory tidal volume; likewise for expiration. -/
def rescaleBreath (k : ℕ) (avgI avgE vtI vtE : ℚ) (b : BreathBins) : BreathBins :=
  { b with
    inspVol := (List.range (k + 1)).map fun j => b.inspVol.getD j 0 / vtI * avgI
    expVol := (List.range (k + 1)).map fun j => b.expVol.getD j 0 / vtE * avgE }

/-- The full volume normalisation of the time-bin bundle (time_bins.py lines
216-246): the shift pass followed by the per-breath rescale with
`Avg_Insp_Vt = mean(Vt_Insp_list)` and `Avg_Exp_Vt = mean(Vt_Exp_list)`;
returns the normalised breaths and `Mean_shift`. -/
def normalizeTbins (k : ℕ) (bs : List BreathBins) (vtI vtE : List ℚ) :
    List BreathBins × ℚ :=
  let (bs1, ms) := meanShiftPass k bs
  let avgI := pyMean vtI
  let avgE := pyMean vtE
  (bs1.mapIdx fun i b => rescaleBreath k avgI avgE (vtI.getD i 0) (vtE.getD i 0) b,
   ms)

/-- The per-bin column read by the aggregation loops (time_bins.py lines
262-264 and parallels): the value of bin `j` of each of the `b` breaths, in
breath order. -/
def binColumn (arrs : List (List ℚ)) (b j : ℕ) : List ℚ :=
  (List.range b).map fun i => (arrs.getD i []).getD j 0

/-- `np.std(xs, ddof=1)` squared, as computed by the aggregation loops
(time_bins.py line 266 and parallels): the sample variance with denominator
`len - 1`.  On fewer than two values numpy's division 0/0 yields NaN, which
the embedding renders as `none`. -/
def sampleVar (xs : List ℚ) : Option ℚ :=
  if xs.length ≤ 1 then none
  else some ((xs.map fun x => (x - pyMean xs) ^ 2).sum / ((xs.length : ℚ) - 1))

/-- Aggregated means and dispersions of one quantity across breaths
(time_bins.py lines 258-305 and volume_bins.py lines 145-192): for each bin
`j` the column total divided by the breath count plus `shift`, and the sample
variance of the column.  The time-scheme volume streams pass `Mean_shift` as
`shift`; every other stream passes 0, matching the code, which adds nothing
there. -/
def aggregate (arrs : List (List ℚ)) (k b : ℕ) (shift : ℚ) :
    List ℚ × List (Option ℚ) :=
  ((List.range (k + 1)).map fun j => (binColumn arrs b j).sum / b + shift,
   (List.range (k + 1)).map fun j => sampleVar (binColumn arrs b j))

/-- The four aggregated streams of the time-bin scheme (time_bins.py lines
258-305): `Mean_shift` is added to the inspiration and expiration volume
means and to nothing else. -/
def tbinAggregate (bs : List BreathBins) (k b : ℕ) (ms : ℚ) :
    (List ℚ × List (Option ℚ)) × (List ℚ × List (Option ℚ)) ×
      (List ℚ × List (Option ℚ)) × (List ℚ × List (Option ℚ)) :=
  (aggregate (bs.map BreathBins.inspVol) k b ms,
   aggregate (bs.map BreathBins.expVol) k b ms,
   aggregate (bs.map BreathBins.inspFlow) k b 0,
   aggregate (bs.map BreathBins.expFlow) k b 0)

/-- The four aggregated streams of the volume-bin scheme (volume_bins.py lines
145-192): no stream receives `Mean_shift`. -/
def vbinAggregate (bs : List BreathBins) (k b : ℕ) :
    (List ℚ × List (Option ℚ)) × (List ℚ × List (Option ℚ)) ×
      (List ℚ × List (Option ℚ)) × (List ℚ × List (Option ℚ)) :=
  (aggregate (bs.map BreathBins.inspVol) k b 0,
   aggregate (bs.map BreathBins.expVol) k b 0,
   aggregate (bs.map BreathBins.inspFlow) k b 0,
   aggregate (bs.map BreathBins.expFlow) k b 0)

/-- Percent-of-TLC conversion of a volume column (reader.py lines 53-54):
`(vol / tlc) * 100` elementwise. -/
def percentTLC (tlc : ℚ) (vols : List ℚ) : List ℚ :=
  vols.map fun v => v / tlc * 100

/-- The data transformation of `read_excel_file` (reader.py lines 48-63): the
two volume columns become percent of TLC, the two flow columns pass through
unchanged, and the row count is the larger of the two volume column
lengths. -/
def readExcelCore (tlc : ℚ) (inspVol inspFlow expVol expFlow : List ℚ) :
    List ℚ × List ℚ × List ℚ × List ℚ × ℕ :=
  (percentTLC tlc inspVol, inspFlow, percentTLC tlc expVol, expFlow,
   max (percentTLC tlc inspVol).length (percentTLC tlc expVol).length)

/-- Round-half-to-even on `ℚ`, the semantics of Python `round` applied to an
exact value. -/
def roundHalfEven (x : ℚ) : ℤ :=
  let f := ⌊x⌋
  if x - f < 1 / 2 then f
  else if 1 / 2 < x - f then f + 1
  else if Even f then f else f + 1

/-- Python `round(x, 2)` on an exact value: round half to even at two decimal
places (writer.py line 132). -/
def pyRound2 (x : ℚ) : ℚ :=
  (roundHalfEven (x * 100) : ℚ) / 100

/-- The average TLC of `create_horizontal_layout_output` (writer.py lines
130-132): the mean of the collected TLC values (0 when there are none),
rounded to two decimal places before any use. -/
def avgTlcOf (tlcs : List ℚ) : ℚ :=
  pyRound2 (if tlcs.isEmpty then 0 else tlcs.sum / tlcs.length)

/-- The cell conversion of the absolute-volume and normalized-average sheets
(writer.py lines 196-198 and 257-259): a present value becomes
`x * avg_tlc / 100`; a missing cell passes through. -/
def toAbsolute (avgTlc : ℚ) (cell : Option ℚ) : Option ℚ :=
  cell.map fun x => x * avgTlc / 100

/-- The `Absolute Vol` columns (writer.py lines 190-198): every percent-TLC
column converted cellwise with `toAbsolute`. -/
def absoluteColumns (avgTlc : ℚ) (volCols : List (List (Option ℚ))) :
    List (List (Option ℚ)) :=
  volCols.map fun col => col.map (toAbsolute avgTlc)

/-- The `Normalized Average Volume` column (writer.py lines 255-259): the
average percent-TLC column converted cellwise with `toAbsolute`. -/
def normalizedAvgVolume (avgTlc : ℚ) (avgPercent : List (Option ℚ)) :
    List (Option ℚ) :=
  avgPercent.map (toAbsolute avgTlc)

/-- Stopping pattern of the leading trim loop (fvavg.py line 204): the list
holds at least three samples, the head flow is zero and the third flow is
negative. -/
def leadStopPat (f : List ℚ) : Prop :=
  3 ≤ f.length ∧ f.getD 0 0 = 0 ∧ f.getD 2 0 < 0

instance (f : List ℚ) : Decidable (leadStopPat f) := by
  unfold leadStopPat
  infer_instance

/-- Stopping pattern of the trailing trim loop (fvavg.py line 215), stated on
the reversed list: at least three samples, `flow[-3] = 0` and
`flow[-1] < 0`. -/
def tailStopPat (g : List ℚ) : Prop :=
  3 ≤ g.length ∧ g.getD 2 0 = 0 ∧ g.getD 0 0 < 0

instance (g : List ℚ) : Decidable (tailStopPat g) := by
  unfold tailStopPat
  infer_instance

/-- Head-entry drops of the phase-length list as the code performs them, as a
total function of `counter_start`: one entry when the counter is 1, two when
it is 2, none otherwise. -/
def applyHeadDrop (cs : ℚ) (pl : List ℕ) : List ℕ :=
  if cs = 1 then pl.drop 1 else if cs = 2 then pl.drop 2 else pl

/-- Tail-entry drop of the phase-length list as a total function of
`counter_end`: the last entry is dropped exactly when the counter is 1. -/
def applyTailDrop (ce : ℚ) (pl : List ℕ) : List ℕ :=
  if ce = 1 then pl.dropLast else pl

/-- Reading bin `j` of an array built over `List.range n`. -/
theorem getD_range_map {α : Type} (f : ℕ → α) (d : α) {n j : ℕ} (h : j < n) :
    ((List.range n).map f).getD j d = f j := by
  simp [List.getD_eq_getElem?_getD, List.getElem?_map, List.getElem?_range, h]

/-- Python `l[-1]` read as bin `k` of an array of `k + 1` entries. -/
theorem getLastD_eq_getD_of_len {α : Type} {l : List α} {k : ℕ}
    (h : l.length = k + 1) (d : α) : l.getLastD d = l.getD k d := by
  rw [List.getLastD_eq_getLast?, List.getLast?_eq_getElem?, List.getD_eq_getElem?_getD, h]
  simp

/-- Python `l[0]` read as bin 0. -/
theorem headD_eq_getD {α : Type} (l : List α) (d : α) : l.headD d = l.getD 0 d := by
  cases l <;> rfl

/-- The standard deviation shape of the specification: the square root of a
half squared difference. -/
theorem sqrt_half_sq (x : ℝ) : Real.sqrt (x ^ 2 / 2) = |x| / Real.sqrt 2 := by
  rw [div_eq_mul_inv, Real.sqrt_mul (sq_nonneg x), Real.sqrt_inv,
    Real.sqrt_sq_eq_abs, div_eq_mul_inv]

/-- C8.  For every subject with TLC > 0 the consolidator reader turns each
volume column into percent of TLC (`v / tlc * 100`), passes both flow columns
through unchanged, and the round trip `x * tlc / 100` recovers every original
volume exactly in exact arithmetic. -/
theorem c8_consolidator_roundtrip (tlc : ℚ) (htlc : 0 < tlc)
    (inspVol inspFlow expVol expFlow : List ℚ) :
    (readExcelCore tlc inspVol inspFlow expVol expFlow).1 = percentTLC tlc inspVol ∧
    (readExcelCore tlc inspVol inspFlow expVol expFlow).2.1 = inspFlow ∧
    (readExcelCore tlc inspVol inspFlow expVol expFlow).2.2.2.1 = expFlow ∧
    ((readExcelCore tlc inspVol inspFlow expVol expFlow).1.map
        fun x => x * tlc / 100) = inspVol ∧
    ((readExcelCore tlc inspVol inspFlow expVol expFlow).2.2.1.map
        fun x => x * tlc / 100) = expVol := by
  have htlc0 : tlc ≠ 0 := ne_of_gt htlc
  have hcomp : ((fun x => x * tlc / 100) ∘ fun v => v / tlc * 100) = id := by
    funext v
    simp only [Function.comp, id]
    field_simp
  refine ⟨rfl, rfl, rfl, ?_, ?_⟩ <;>
    simp [readExcelCore, percentTLC, List.map_map, hcomp]

/-- C8 witness: the instance TLC = 4 with concrete columns. -/
theorem c8_consolidator_roundtrip_witness :
    (readExcelCore 4 [2, 3] [5] [7] [6]).1 = percentTLC 4 [2, 3] ∧
    (readExcelCore 4 [2, 3] [5] [7] [6]).2.1 = [5] ∧
    (readExcelCore 4 [2, 3] [5] [7] [6]).2.2.2.1 = [6] ∧
    ((readExcelCore 4 [2, 3] [5] [7] [6]).1.map fun x => x * 4 / 100) = [2, 3] ∧
    ((readExcelCore 4 [2, 3] [5] [7] [6]).2.2.1.map fun x => x * 4 / 100) = [7] :=
  c8_consolidator_roundtrip 4 (by norm_num) [2, 3] [5] [7] [6]

/-- C10.  In the horizontal-layout output every present absolute-volume cell
and every normalized-average-volume cell equals the percent-TLC value times
the cross-subject mean TLC rounded to two decimals, divided by 100; the
conversion factor `avgTlcOf` is exactly the rounded mean, so the unrounded
mean never enters the conversion. -/
theorem c10_rounded_mean_tlc (tlcs : List ℚ) (h : tlcs ≠ [])
    (cols : List (List (Option ℚ))) (avgPercent : List (Option ℚ)) :
    avgTlcOf tlcs = pyRound2 (tlcs.sum / tlcs.length) ∧
    absoluteColumns (avgTlcOf tlcs) cols =
      cols.map (fun col => col.map (Option.map
        fun x => x * pyRound2 (tlcs.sum / tlcs.length) / 100)) ∧
    normalizedAvgVolume (avgTlcOf tlcs) avgPercent =
      avgPercent.map (Option.map
        fun x => x * pyRound2 (tlcs.sum / tlcs.length) / 100) := by
  have h0 : tlcs.isEmpty = false := by simpa [List.isEmpty_iff] using h
  refine ⟨by simp [avgTlcOf, h0], ?_, ?_⟩ <;>
    simp [absoluteColumns, normalizedAvgVolume, toAbsolute, avgTlcOf, h0]

/-- C10 witness: two subjects with TLC 6 and 8, one percent column holding a
present and a missing cell. -/
theorem c10_rounded_mean_tlc_witness :
    avgTlcOf [6, 8] = pyRound2 (([6, 8] : List ℚ).sum / ([6, 8] : List ℚ).length) ∧
    absoluteColumns (avgTlcOf [6, 8]) [[some 50, none]] =
      [[some 50, none]].map (fun col => col.map (Option.map
        fun x => x * pyRound2 (([6, 8] : List ℚ).sum / ([6, 8] : List ℚ).length) / 100)) ∧
    normalizedAvgVolume (avgTlcOf [6, 8]) [some (175 / 4)] =
      [some (175 / 4)].map (Option.map
        fun x => x * pyRound2 (([6, 8] : List ℚ).sum / ([6, 8] : List ℚ).length) / 100) :=
  c10_rounded_mean_tlc [6, 8] (List.cons_ne_nil _ _) [[some 50, none]] [some (175 / 4)]

/-- C7.  For every bin `j`, the aggregated mean of each stream is the sum over
the breaths divided by the breath count, with `Mean_shift` added exactly to
the time-scheme volume means (not to time-scheme flows and not to any
volume-scheme stream); each per-bin column has one value per breath; the
dispersion entry (the sample variance, whose square root the code reports) is
none - numpy NaN - whenever fewer than two breaths contribute; and on a
two-value column the sample variance is the half squared difference, whose
square root is `|x - y| / sqrt 2`. -/
theorem c7_aggregated_mean_sd (k b j : ℕ) (bs : List BreathBins) (ms : ℚ)
    (hj : j ≤ k) :
    ((tbinAggregate bs k b ms).1.1.getD j 0 =
        (binColumn (bs.map BreathBins.inspVol) b j).sum / b + ms ∧
      (tbinAggregate bs k b ms).2.1.1.getD j 0 =
        (binColumn (bs.map BreathBins.expVol) b j).sum / b + ms ∧
      (tbinAggregate bs k b ms).2.2.1.1.getD j 0 =
        (binColumn (bs.map BreathBins.inspFlow) b j).sum / b ∧
      (tbinAggregate bs k b ms).2.2.2.1.getD j 0 =
        (binColumn (bs.map BreathBins.expFlow) b j).sum / b) ∧
    ((vbinAggregate bs k b).1.1.getD j 0 =
        (binColumn (bs.map BreathBins.inspVol) b j).sum / b ∧
      (vbinAggregate bs k b).2.1.1.getD j 0 =
        (binColumn (bs.map BreathBins.expVol) b j).sum / b ∧
      (vbinAggregate bs k b).2.2.1.1.getD j 0 =
        (binColumn (bs.map BreathBins.inspFlow) b j).sum / b ∧
      (vbinAggregate bs k b).2.2.2.1.getD j 0 =
        (binColumn (bs.map BreathBins.expFlow) b j).sum / b) ∧
    (binColumn (bs.map BreathBins.inspVol) b j).length = b ∧
    (b ≤ 1 →
      (tbinAggregate bs k b ms).1.2.getD j none = none ∧
      (tbinAggregate bs k b ms).2.1.2.getD j none = none ∧
      (tbinAggregate bs k b ms).2.2.1.2.getD j none = none ∧
      (tbinAggregate bs k b ms).2.2.2.2.getD j none = none ∧
      (vbinAggregate bs k b).1.2.getD j none = none ∧
      (vbinAggregate bs k b).2.1.2.getD j none = none ∧
      (vbinAggregate bs k b).2.2.1.2.getD j none = none ∧
      (vbinAggregate bs k b).2.2.2.2.getD j none = none) ∧
    (∀ x y : ℚ,
      sampleVar [x, y] = some ((x - y) ^ 2 / 2) ∧
      Real.sqrt (((x - y) ^ 2 / 2 : ℚ) : ℝ) = |(x : ℝ) - (y : ℝ)| / Real.sqrt 2) := by
  have hj' : j < k + 1 := Nat.lt_succ_of_le hj
  have hcol : ∀ arrs : List (List ℚ), (binColumn arrs b j).length = b := by
    intro arrs
    simp [binColumn]
  have hM : ∀ (arrs : List (List ℚ)) (sh : ℚ),
      (((List.range (k + 1)).map
        fun j' => (binColumn arrs b j').sum / b + sh).getD j 0) =
        (binColumn arrs b j).sum / b + sh :=
    fun arrs sh => getD_range_map _ _ hj'
  have hM0 : ∀ arrs : List (List ℚ),
      (((List.range (k + 1)).map
        fun j' => (binColumn arrs b j').sum / b + 0).getD j 0) =
        (binColumn arrs b j).sum / b :=
    fun arrs => (hM arrs 0).trans (add_zero _)
  refine ⟨⟨hM _ ms, hM _ ms, hM0 _, hM0 _⟩, ⟨hM0 _, hM0 _, hM0 _, hM0 _⟩,
    hcol _, ?_, ?_⟩
  · intro hb
    have hvar : ∀ arrs : List (List ℚ), sampleVar (binColumn arrs b j) = none := by
      intro arrs
      simp [sampleVar, hcol arrs, hb]
    have hN : ∀ arrs : List (List ℚ),
        (((List.range (k + 1)).map
          fun j' => sampleVar (binColumn arrs b j')).getD j none) = none := by
      intro arrs
      rw [getD_range_map _ _ hj', hvar]
    exact ⟨hN _, hN _, hN _, hN _, hN _, hN _, hN _, hN _⟩
  · intro x y
    constructor
    · have h2 : ¬ (([x, y] : List ℚ).length ≤ 1) := by simp
      simp only [sampleVar, if_neg h2, pyMean, Option.some.injEq, List.sum_cons,
        List.sum_nil, List.map_cons, List.map_nil, List.length_cons, List.length_nil]
      push_cast
      field_simp
      ring
    · have h := sqrt_half_sq ((x : ℝ) - (y : ℝ))
      have hc : (((x - y) ^ 2 / 2 : ℚ) : ℝ) = ((x : ℝ) - (y : ℝ)) ^ 2 / 2 := by
        push_cast
        ring
      rw [hc, h]

/-- C7 witness: two breaths, one bin, zero shift, concrete values; the
time-scheme inspiration volume mean instance extracted from the theorem. -/
theorem c7_aggregated_mean_sd_witness :
    (tbinAggregate [⟨[0], [1], [2], [0], [3], [4]⟩, ⟨[0], [5], [6], [0], [7], [8]⟩]
        0 2 0).1.1.getD 0 0 =
      (binColumn ([⟨[0], [1], [2], [0], [3], [4]⟩,
        ⟨[0], [5], [6], [0], [7], [8]⟩].map BreathBins.inspVol) 2 0).sum / 2 + 0 :=
  (c7_aggregated_mean_sd 0 2 0
    [⟨[0], [1], [2], [0], [3], [4]⟩, ⟨[0], [5], [6], [0], [7], [8]⟩] 0
    (Nat.le_refl 0)).1.1

/-- Every branch of one scan step appends the same number of entries to the
three output lists. -/
theorem zcStep_lengths (t v f : List ℚ) (s : ZState) (i : ℕ)
    (h1 : s.times.length = s.vols.length)
    (h2 : s.vols.length = s.flows.length) :
    (zcStep t v f s i).times.length = (zcStep t v f s i).vols.length ∧
    (zcStep t v f s i).vols.length = (zcStep t v f s i).flows.length := by
  simp only [zcStep, stdAppend, lastAppend, validAppend]
  split_ifs <;> constructor <;> simp [h1, h2]

/-- The equal-lengths invariant is preserved along the whole scan. -/
theorem foldl_zcStep_lengths (t v f : List ℚ) (is : List ℕ) (s : ZState)
    (h1 : s.times.length = s.vols.length)
    (h2 : s.vols.length = s.flows.length) :
    (is.foldl (zcStep t v f) s).times.length =
      (is.foldl (zcStep t v f) s).vols.length ∧
    (is.foldl (zcStep t v f) s).vols.length =
      (is.foldl (zcStep t v f) s).flows.length := by
  induction is generalizing s with
  | nil => exact ⟨h1, h2⟩
  | cons a as ih =>
    obtain ⟨g1, g2⟩ := zcStep_lengths t v f s a h1 h2
    exact ih _ g1 g2

/-- C9.  On equal-length inputs - the shape the reader always delivers, and
the only shape on which the Python scan cannot abort - the three augmented
lists returned by the zero-crossing detector have equal length: every branch
(validated crossing, failed validation, same-sign neighbour, and the
IndexError fallback) appends the same number of entries to each list. -/
theorem c9_equal_lengths (t v f : List ℚ)
    (_h1 : t.length = f.length) (_h2 : v.length = f.length) :
    (findZeroFlowPoints t v f).1.length = (findZeroFlowPoints t v f).2.1.length ∧
    (findZeroFlowPoints t v f).2.1.length =
      (findZeroFlowPoints t v f).2.2.1.length := by
  simpa [findZeroFlowPoints] using
    foldl_zcStep_lengths t v f (List.range f.length) ⟨[], [], [], 0, []⟩ rfl rfl

/-- C9 witness: a concrete three-sample recording. -/
theorem c9_equal_lengths_witness :
    (findZeroFlowPoints [1, 2, 3] [4, 5, 6] [7, 8, 9]).1.length =
      (findZeroFlowPoints [1, 2, 3] [4, 5, 6] [7, 8, 9]).2.1.length ∧
    (findZeroFlowPoints [1, 2, 3] [4, 5, 6] [7, 8, 9]).2.1.length =
      (findZeroFlowPoints [1, 2, 3] [4, 5, 6] [7, 8, 9]).2.2.1.length :=
  c9_equal_lengths [1, 2, 3] [4, 5, 6] [7, 8, 9] rfl rfl

/-- Dropping the head shifts the family of suffixes by one. -/
theorem shift_noPat {P : List ℚ → Prop} {f0 : ℚ} {fs : List ℚ}
    (h : ∀ k < (f0 :: fs).length, ¬ P ((f0 :: fs).drop k)) :
    ∀ k < fs.length, ¬ P (fs.drop k) := by
  intro k hk
  have := h (k + 1) (by simp [hk])
  simpa using this

/-- If no suffix of the flow list satisfies the stopping pattern, the leading
trim loop deletes its way to an IndexError. -/
theorem trimLead_exhausts (f : List ℚ) : ∀ (v t : List ℚ) (c : ℚ),
    (∀ k < f.length, ¬ leadStopPat (f.drop k)) →
    trimLead f v t c = .error .indexError := by
  induction f with
  | nil => intro v t c _; rfl
  | cons f0 fs ih =>
    intro v t c hk
    match v, t with
    | [], _ => rfl
    | _ :: _, [] => rfl
    | v0 :: vs, t0 :: ts =>
      show trimLead (f0 :: fs) (v0 :: vs) (t0 :: ts) c = .error .indexError
      rw [trimLead.eq_def]
      dsimp only
      by_cases h0 : f0 = 0
      · rw [if_pos h0]
        rcases fs with _ | ⟨f1, _ | ⟨f2, rest⟩⟩
        · rfl
        · rfl
        · have hstop := hk 0 (by simp)
          have hf2 : ¬ f2 < 0 := by
            intro hlt
            exact hstop ⟨by simp, by simpa using h0, by simpa using hlt⟩
          dsimp only
          rw [if_neg hf2]
          exact ih vs ts _ (shift_noPat hk)
      · rw [if_neg h0]
        exact ih vs ts c (shift_noPat hk)

/-- If no suffix of the reversed flow list satisfies the trailing stopping
pattern, the trailing trim loop deletes its way to an IndexError. -/
theorem trimTailRev_exhausts (g : List ℚ) : ∀ (v t : List ℚ) (c : ℚ),
    (∀ k < g.length, ¬ tailStopPat (g.drop k)) →
    trimTailRev g v t c = .error .indexError := by
  induction g with
  | nil => intro v t c _; rfl
  | cons g1 gs ih =>
    intro v t c hk
    rcases gs with _ | ⟨g2, _ | ⟨g3, rest⟩⟩
    · rcases v with _ | ⟨v1, vs⟩ <;> rcases t with _ | ⟨t1, ts⟩ <;> rfl
    · rcases v with _ | ⟨v1, vs⟩ <;> rcases t with _ | ⟨t1, ts⟩ <;> rfl
    · rcases v with _ | ⟨v1, _ | ⟨v2, _ | ⟨v3, vs⟩⟩⟩ <;>
        rcases t with _ | ⟨t1, _ | ⟨t2, _ | ⟨t3, ts⟩⟩⟩ <;>
        try rfl
      show trimTailRev (g1 :: g2 :: g3 :: rest) (v1 :: v2 :: v3 :: vs)
        (t1 :: t2 :: t3 :: ts) c = .error .indexError
      rw [trimTailRev.eq_def]
      dsimp only
      have hstop := hk 0 (by simp)
      have hcond : ¬ (g3 = 0 ∧ g1 < 0) := by
        intro ⟨hz, hneg⟩
        exact hstop ⟨by simp, by simpa using hz, by simpa using hneg⟩
      rw [if_neg hcond]
      exact ih (v2 :: v3 :: vs) (t2 :: t3 :: ts) _ (shift_noPat hk)

/-- C4.  When either trim loop exhausts its sequence without meeting its
stopping pattern - the input contains no full breath - `trim_excess_data`
aborts with the error the specification calls NoFullBreath (the uncaught
IndexError of the exhausted loop). -/
theorem c4_no_full_breath (t v f : List ℚ) (pl : List ℕ)
    (h : (∀ k < f.length, ¬ leadStopPat (f.drop k)) ∨
      ∃ f1 v1 t1 cs, trimLead f v t 1 = .ok (f1, v1, t1, cs) ∧
        ∀ k < f1.length, ¬ tailStopPat (f1.reverse.drop k)) :
    trimExcessData t v f pl = .error .indexError := by
  cases h with
  | inl h =>
    unfold trimExcessData
    rw [trimLead_exhausts f v t 1 h]
    rfl
  | inr h =>
    obtain ⟨f1, v1, t1, cs, hok, hpat⟩ := h
    unfold trimExcessData
    rw [hok]
    have hrev : ∀ k < f1.reverse.length, ¬ tailStopPat (f1.reverse.drop k) := by
      intro k hk
      exact hpat k (by simpa using hk)
    show (trimTailRev f1.reverse v1.reverse t1.reverse 0).bind _ = _
    rw [trimTailRev_exhausts f1.reverse v1.reverse t1.reverse 0 hrev]
    rfl

/-- C4 witness: the chattering flow of the specification scenario, which never
contains a zero sample, so the leading loop can never stop. -/
theorem c4_no_full_breath_witness :
    trimExcessData [0, 1, 2, 3] [4, 5, 6, 7] [-1, 1, -1, 1] [3] =
      .error .indexError :=
  c4_no_full_breath [0, 1, 2, 3] [4, 5, 6, 7] [-1, 1, -1, 1] [3]
    (Or.inl (by with_unfolding_all decide))

/-- A successful Python `del l[0]` leaves the tail. -/
theorem delHead_ok {α : Type} {l r : List α} (h : delHead l = .ok r) :
    r = l.drop 1 := by
  cases l with
  | nil => simp [delHead] at h
  | cons a l =>
    simp only [delHead, Except.ok.injEq] at h
    simp [← h]

/-- A successful Python `del l[-1]` leaves the list without its last entry. -/
theorem delLast_ok {α : Type} {l r : List α} (h : delLast l = .ok r) :
    r = l.dropLast := by
  cases l with
  | nil => simp [delLast] at h
  | cons a l =>
    simp only [delLast, Except.ok.injEq] at h
    simp [← h]

/-- A successful phase-length adjustment performs exactly the drops of
`applyHeadDrop` and `applyTailDrop`: one head entry for counter 1, two for
counter 2, none otherwise, and the last entry exactly for end counter 1. -/
theorem adjustPhaseList_ok {cs ce : ℚ} {pl pl2 : List ℕ}
    (h : adjustPhaseList cs ce pl = .ok pl2) :
    pl2 = applyTailDrop ce (applyHeadDrop cs pl) := by
  unfold adjustPhaseList at h
  by_cases hc1 : cs = 1
  · rw [if_pos hc1] at h
    rcases h1 : delHead pl with e | pl1
    · rw [h1] at h
      simp [Bind.bind, Except.bind] at h
    · rw [h1] at h
      simp only [Bind.bind, Except.bind] at h
      have hp1 := delHead_ok h1
      by_cases hce : ce = 1
      · rw [if_pos hce] at h
        have := delLast_ok h
        simp [applyHeadDrop, applyTailDrop, hc1, hce, this, hp1]
      · rw [if_neg hce] at h
        simp only [Except.ok.injEq] at h
        simp [applyHeadDrop, applyTailDrop, hc1, hce, ← h, hp1]
  · rw [if_neg hc1] at h
    by_cases hc2 : cs = 2
    · rw [if_pos hc2] at h
      rcases h1 : delHead pl with e | pl1
      · rw [h1] at h
        simp [Bind.bind, Except.bind] at h
      · rw [h1] at h
        simp only [Bind.bind, Except.bind] at h
        rcases h2 : delHead pl1 with e | pl1'
        · rw [h2] at h
          simp [Bind.bind, Except.bind] at h
        · rw [h2] at h
          simp only [Bind.bind, Except.bind] at h
          have hp1 := delHead_ok h1
          have hp2 := delHead_ok h2
          have hdrop : pl1' = pl.drop 2 := by
            rw [hp2, hp1, List.drop_drop]
          by_cases hce : ce = 1
          · rw [if_pos hce] at h
            have := delLast_ok h
            simp [applyHeadDrop, applyTailDrop, hc1, hc2, hce, this, hdrop]
          · rw [if_neg hce] at h
            simp only [Except.ok.injEq] at h
            simp [applyHeadDrop, applyTailDrop, hc1, hc2, hce, ← h, hdrop]
    · rw [if_neg hc2] at h
      simp only [Bind.bind, Except.bind] at h
      by_cases hce : ce = 1
      · rw [if_pos hce] at h
        have := delLast_ok h
        simp [applyHeadDrop, applyTailDrop, hc1, hc2, hce, this]
      · rw [if_neg hce] at h
        simp only [Except.ok.injEq] at h
        simp [applyHeadDrop, applyTailDrop, hc1, hc2, hce, ← h]

/-- C5 (amended).  Whenever the trimmer returns, the reported number of
breaths is the floor of half the length of the adjusted phase-length list
(the code computes `int(len(phase_indexes_list) / 2)`); the list itself need
not have even length. -/
theorem c5_breaths_floor_half (t v f : List ℚ) (pl : List ℕ)
    (r : List ℚ × List ℚ × List ℚ × List ℕ × ℕ)
    (h : trimExcessData t v f pl = .ok r) :
    r.2.2.2.2 = r.2.2.2.1.length / 2 := by
  unfold trimExcessData at h
  rcases hL : trimLead f v t 1 with e | ⟨f1, v1, t1, cs⟩
  · rw [hL] at h
    simp [Bind.bind, Except.bind] at h
  · rw [hL] at h
    simp only [Bind.bind, Except.bind] at h
    rcases hT : trimTailRev f1.reverse v1.reverse t1.reverse 0 with e | ⟨fr, vr, tr, ce⟩
    · rw [hT] at h
      simp [Except.bind] at h
    · rw [hT] at h
      simp only [Except.bind] at h
      rcases hA : adjustPhaseList cs ce pl with e | pl2
      · rw [hA] at h
        simp [Except.bind] at h
      · rw [hA] at h
        simp only [Except.bind, Except.ok.injEq] at h
        rw [← h]

/-- C6 (amended).  With the counters delivered by the two trim loops (the
loops increment them by one half exactly on the deleted samples the claim
describes), the trimmer drops the first phase-length entry exactly when
`counter_start` is 1 or 2, a second entry exactly when it is 2, and the last
entry exactly when `counter_end` is 1; a fractional or larger counter drops
nothing. -/
theorem c6_phase_drop_rule (t v f : List ℚ) (pl : List ℕ)
    (f1 v1 t1 : List ℚ) (cs : ℚ) (fr vr tr : List ℚ) (ce : ℚ) (pl2 : List ℕ)
    (hL : trimLead f v t 1 = .ok (f1, v1, t1, cs))
    (hT : trimTailRev f1.reverse v1.reverse t1.reverse 0 = .ok (fr, vr, tr, ce))
    (hA : adjustPhaseList cs ce pl = .ok pl2) :
    trimExcessData t v f pl =
      .ok (tr.reverse, vr.reverse, fr.reverse, pl2, pl2.length / 2) ∧
    pl2 = applyTailDrop ce (applyHeadDrop cs pl) := by
  constructor
  · unfold trimExcessData
    rw [hL]
    simp only [Bind.bind, Except.bind]
    rw [hT]
    simp only [Except.bind]
    rw [hA]
  · exact adjustPhaseList_ok hA

/-- C5 witness: a six-sample augmented input on which the trimmer succeeds
with counters 1 and 0, leaving one phase entry and reporting zero breaths,
the floor of one half. -/
theorem c5_breaths_floor_half_witness :
    (([11, 12], [2, 3], [5, -1], [2], 0) :
        List ℚ × List ℚ × List ℚ × List ℕ × ℕ).2.2.2.2 =
      (([11, 12], [2, 3], [5, -1], [2], 0) :
        List ℚ × List ℚ × List ℚ × List ℕ × ℕ).2.2.2.1.length / 2 :=
  c5_breaths_floor_half [10, 11, 12, 13, 14, 15] [1, 2, 3, 4, 5, 6]
    [0, 5, -1, 0, 0, -1] [2, 2] ([11, 12], [2, 3], [5, -1], [2], 0)
    (by with_unfolding_all rfl)

/-- C6 witness: the same six-sample input, with the lead counter 1 and end
counter 0 read off the two loops; exactly one head entry is dropped. -/
theorem c6_phase_drop_rule_witness :
    trimExcessData [10, 11, 12, 13, 14, 15] [1, 2, 3, 4, 5, 6]
        [0, 5, -1, 0, 0, -1] [2, 2] =
      .ok (([12, 11] : List ℚ).reverse, ([3, 2] : List ℚ).reverse,
        ([-1, 5] : List ℚ).reverse, [2], ([2] : List ℕ).length / 2) ∧
    ([2] : List ℕ) = applyTailDrop 0 (applyHeadDrop 1 [2, 2]) :=
  c6_phase_drop_rule [10, 11, 12, 13, 14, 15] [1, 2, 3, 4, 5, 6]
    [0, 5, -1, 0, 0, -1] [2, 2]
    [5, -1, 0, 0, -1] [2, 3, 4, 5, 6] [11, 12, 13, 14, 15] 1
    [-1, 5] [3, 2] [12, 11] 0 [2]
    (by with_unfolding_all rfl) (by with_unfolding_all rfl)
    (by with_unfolding_all rfl)

set_option maxRecDepth 1000000

set_option maxHeartbeats 4000000

/-- C1.  At the crossing of `flowC1` at index 45 the code computes the
backward value 1/2, because the reads of `flow[-1] .. flow[-15]` wrap to the
positive tail of the recording, while the zero-filled average the claim
describes is -1/4; the forward check passes, the candidate flows have the
required signs, and the scan validates nothing (the phase list stays empty),
although under the claim's backward rule the crossing would be validated. -/
theorem c1_backward_check_wraps :
    backTrack flowC1 45 = 1 / 2 ∧
    backTrackSpec flowC1 45 = -(1 / 4) ∧
    fwdCountNegToPos flowC1 45 = 30 ∧
    flowC1.getD 45 0 < 0 ∧ 0 < flowC1.getD 46 0 ∧
    (findZeroFlowPoints timeC1 volC1 flowC1).2.2.2 = [] := by
  have h45 : flowC1.getD 45 0 = -1 := by with_unfolding_all rfl
  have h46 : flowC1.getD 46 0 = 1 := by with_unfolding_all rfl
  refine ⟨?_, ?_, ?_, ?_, ?_, ?_⟩
  · with_unfolding_all rfl
  · with_unfolding_all rfl
  · with_unfolding_all rfl
  · rw [h45]
    norm_num
  · rw [h46]
    norm_num
  · with_unfolding_all rfl

/-- C2.  On recording B with `intervals = 4` the pipeline returns one breath
whose time-bin inspiration volume array has 3 entries - the targets 35/2 and
105/2 coincide with interior sample times and the scan appends nothing for
them - although the target array itself has the 5 entries the claim requires
of every array. -/
theorem c2_bin_count_bug :
    (pipelineTbin rawTimeB rawVolB rawFlowB 4).map
        (fun bs => ((bs.headD default).inspVol.length,
          (bs.headD default).inspTime.length)) = .ok (3, 5) ∧
    (3 : ℕ) ≠ 4 + 1 := by
  refine ⟨?_, by decide⟩
  with_unfolding_all rfl

/-- C5 counterexample: on recording A the trimmer succeeds, the lead counter
finishes at 3/2, no phase entry is dropped, and the remaining phase-length
list has odd length 3 while the reported breath count is 1, so the list does
not have length 2B. -/
theorem c5_counterexample_odd_phase_list :
    (trimExcessData zeroedA.1 zeroedA.2.1 zeroedA.2.2.1 zeroedA.2.2.2).map
        (fun r => (r.2.2.2.1.length, r.2.2.2.2)) = .ok (3, 1) ∧
    2 * 1 ≠ 3 := by
  refine ⟨?_, by decide⟩
  with_unfolding_all rfl

/-- C6 counterexample: on recording A the lead counter finishes at 3/2 and the
trimmer returns the three-entry phase-length list unchanged - the first entry
is not dropped, contrary to the claim that it always is. -/
theorem c6_counterexample_no_drop :
    (trimLead zeroedA.2.2.1 zeroedA.2.1 zeroedA.1 1).map (fun x => x.2.2.2) =
      .ok (3 / 2 : ℚ) ∧
    zeroedA.2.2.2 = [72, 72, 72] ∧
    (trimExcessData zeroedA.1 zeroedA.2.1 zeroedA.2.2.1 zeroedA.2.2.2).map
        (fun r => r.2.2.2.1) = .ok [72, 72, 72] := by
  refine ⟨?_, ?_, ?_⟩ <;> with_unfolding_all rfl

/-- C3.  For a breath set of the shape the pipeline delivers - bin arrays of
length `K + 1`, the inspiration end volume of each breath equal to its
expiration start volume (the two synthetic points of one crossing share their
volume), and each tidal volume the positive bin-endpoint excursion - the
time-bin normalizer sends bin `K` of every inspiration array and bin 0 of
every expiration array to 0, makes every inspiration excursion equal to
`mean(Vt_Insp)` and every expiration excursion equal to `mean(Vt_Exp)`,
returns `Mean_shift` as the sum of all subtracted endpoint volumes over `2B`,
and that value equals the mean over breaths of the pre-normalization
inspiration bin-`K` volumes. -/
theorem c3_normalization_fixed_point (k : ℕ) (bs : List BreathBins)
    (vtI vtE : List ℚ)
    (hB : 1 ≤ bs.length)
    (hleni : ∀ b ∈ bs, b.inspVol.length = k + 1)
    (_hlene : ∀ b ∈ bs, b.expVol.length = k + 1)
    (hpair : ∀ b ∈ bs, b.inspVol.getD k 0 = b.expVol.getD 0 0)
    (hvtIlen : vtI.length = bs.length)
    (hvtElen : vtE.length = bs.length)
    (hvtIpos : ∀ x ∈ vtI, 0 < x)
    (hvtEpos : ∀ x ∈ vtE, 0 < x)
    (hvtI : ∀ i < bs.length, vtI.getD i 0 =
      |(bs.getD i default).inspVol.getD k 0 - (bs.getD i default).inspVol.getD 0 0|)
    (hvtE : ∀ i < bs.length, vtE.getD i 0 =
      |(bs.getD i default).expVol.getD k 0 - (bs.getD i default).expVol.getD 0 0|) :
    (∀ i < bs.length,
      ((normalizeTbins k bs vtI vtE).1.getD i default).inspVol.getD k 0 = 0 ∧
      ((normalizeTbins k bs vtI vtE).1.getD i default).expVol.getD 0 0 = 0 ∧
      |((normalizeTbins k bs vtI vtE).1.getD i default).inspVol.getD 0 0 -
          ((normalizeTbins k bs vtI vtE).1.getD i default).inspVol.getD k 0| =
        pyMean vtI ∧
      |((normalizeTbins k bs vtI vtE).1.getD i default).expVol.getD k 0 -
          ((normalizeTbins k bs vtI vtE).1.getD i default).expVol.getD 0 0| =
        pyMean vtE) ∧
    (normalizeTbins k bs vtI vtE).2 =
      (bs.map fun b => b.inspVol.getLastD 0 + b.expVol.headD 0).sum /
        (2 * bs.length) ∧
    (bs.map fun b => b.inspVol.getD k 0).sum / bs.length =
      (normalizeTbins k bs vtI vtE).2 := by
  have hNpos : (0 : ℚ) < bs.length := by
    exact_mod_cast Nat.lt_of_lt_of_le Nat.zero_lt_one hB
  have hNne : (bs.length : ℚ) ≠ 0 := ne_of_gt hNpos
  have havgI : 0 ≤ pyMean vtI :=
    div_nonneg (List.sum_nonneg fun x hx => le_of_lt (hvtIpos x hx))
      (Nat.cast_nonneg _)
  have havgE : 0 ≤ pyMean vtE :=
    div_nonneg (List.sum_nonneg fun x hx => le_of_lt (hvtEpos x hx))
      (Nat.cast_nonneg _)
  have hk' : k < k + 1 := Nat.lt_succ_self k
  have h0' : 0 < k + 1 := Nat.succ_pos k
  have haccess : ∀ i, i < bs.length →
      (normalizeTbins k bs vtI vtE).1.getD i default =
        rescaleBreath k (pyMean vtI) (pyMean vtE) (vtI.getD i 0) (vtE.getD i 0)
          (shiftBreath k (bs.getD i default)).1 := by
    intro i hi
    simp [normalizeTbins, meanShiftPass, List.getD_eq_getElem?_getD,
      List.getElem?_mapIdx, List.getElem?_map, List.getElem?_eq_getElem, hi,
      List.getD_eq_getElem]
  have hmsEq : (normalizeTbins k bs vtI vtE).2 =
      (bs.map fun b => b.inspVol.getLastD 0 + b.expVol.headD 0).sum /
        (2 * bs.length) := by
    have hsnd : (Prod.snd ∘ shiftBreath k) =
        fun b : BreathBins => b.inspVol.getLastD 0 + b.expVol.headD 0 := rfl
    simp only [normalizeTbins, meanShiftPass, List.map_map, hsnd]
    ring
  refine ⟨?_, hmsEq, ?_⟩
  · intro i hi
    have hmem : bs.getD i default ∈ bs := by
      rw [List.getD_eq_getElem bs default hi]
      exact List.getElem_mem hi
    have hvImem : vtI.getD i 0 ∈ vtI := by
      have hi' : i < vtI.length := hvtIlen ▸ hi
      rw [List.getD_eq_getElem vtI 0 hi']
      exact List.getElem_mem hi'
    have hvEmem : vtE.getD i 0 ∈ vtE := by
      have hi' : i < vtE.length := hvtElen ▸ hi
      rw [List.getD_eq_getElem vtE 0 hi']
      exact List.getElem_mem hi'
    have hvIpos : 0 < vtI.getD i 0 := hvtIpos _ hvImem
    have hvEpos : 0 < vtE.getD i 0 := hvtEpos _ hvEmem
    have hsubI : (bs.getD i default).inspVol.getLastD 0 =
        (bs.getD i default).inspVol.getD k 0 :=
      getLastD_eq_getD_of_len (hleni _ hmem) 0
    have hsubE : (bs.getD i default).expVol.headD 0 =
        (bs.getD i default).expVol.getD 0 0 :=
      headD_eq_getD _ 0
    rw [haccess i hi]
    simp only [rescaleBreath, shiftBreath, hsubI, hsubE]
    rw [getD_range_map _ _ hk', getD_range_map _ _ hk', getD_range_map _ _ h0',
      getD_range_map _ _ h0', getD_range_map _ _ h0', getD_range_map _ _ h0',
      getD_range_map _ _ hk', getD_range_map _ _ hk']
    refine ⟨by simp, by simp, ?_, ?_⟩
    · rw [sub_self (((bs.getD i default).inspVol.getD k 0))]
      rw [zero_div, zero_mul, sub_zero, abs_mul, abs_div,
        abs_of_pos hvIpos, abs_of_nonneg havgI, abs_sub_comm, ← hvtI i hi,
        div_self (ne_of_gt hvIpos), one_mul]
    · rw [sub_self (((bs.getD i default).expVol.getD 0 0))]
      rw [zero_div, zero_mul, sub_zero, abs_mul, abs_div,
        abs_of_pos hvEpos, abs_of_nonneg havgE, ← hvtE i hi,
        div_self (ne_of_gt hvEpos), one_mul]
  · have hmapeq : (bs.map fun b => b.inspVol.getLastD 0 + b.expVol.headD 0) =
        bs.map fun b => 2 * b.inspVol.getD k 0 := by
      apply List.map_congr_left
      intro b hb
      rw [getLastD_eq_getD_of_len (hleni b hb) 0, headD_eq_getD, ← hpair b hb]
      ring
    rw [hmsEq, hmapeq, List.sum_map_mul_left]
    field_simp
    ring

/-- C3 witness: two breaths with `K = 1`, tidal volumes 2, 3 (inspiration)
and 3, 2 (expiration); the first breath's facts extracted from the theorem:
bin `K` and bin 0 are zeroed and both excursions equal the mean tidal
volumes 5/2. -/
theorem c3_normalization_fixed_point_witness :
    ((normalizeTbins 1
        [⟨[0, 1], [5, 3], [0, 0], [0, 1], [3, 6], [0, 0]⟩,
         ⟨[0, 1], [7, 4], [0, 0], [0, 1], [4, 6], [0, 0]⟩]
        [2, 3] [3, 2]).1.getD 0 default).inspVol.getD 1 0 = 0 ∧
    ((normalizeTbins 1
        [⟨[0, 1], [5, 3], [0, 0], [0, 1], [3, 6], [0, 0]⟩,
         ⟨[0, 1], [7, 4], [0, 0], [0, 1], [4, 6], [0, 0]⟩]
        [2, 3] [3, 2]).1.getD 0 default).expVol.getD 0 0 = 0 ∧
    |((normalizeTbins 1
        [⟨[0, 1], [5, 3], [0, 0], [0, 1], [3, 6], [0, 0]⟩,
         ⟨[0, 1], [7, 4], [0, 0], [0, 1], [4, 6], [0, 0]⟩]
        [2, 3] [3, 2]).1.getD 0 default).inspVol.getD 0 0 -
      ((normalizeTbins 1
        [⟨[0, 1], [5, 3], [0, 0], [0, 1], [3, 6], [0, 0]⟩,
         ⟨[0, 1], [7, 4], [0, 0], [0, 1], [4, 6], [0, 0]⟩]
        [2, 3] [3, 2]).1.getD 0 default).inspVol.getD 1 0| = pyMean [2, 3] ∧
    |((normalizeTbins 1
        [⟨[0, 1], [5, 3], [0, 0], [0, 1], [3, 6], [0, 0]⟩,
         ⟨[0, 1], [7, 4], [0, 0], [0, 1], [4, 6], [0, 0]⟩]
        [2, 3] [3, 2]).1.getD 0 default).expVol.getD 1 0 -
      ((normalizeTbins 1
        [⟨[0, 1], [5, 3], [0, 0], [0, 1], [3, 6], [0, 0]⟩,
         ⟨[0, 1], [7, 4], [0, 0], [0, 1], [4, 6], [0, 0]⟩]
        [2, 3] [3, 2]).1.getD 0 default).expVol.getD 0 0| = pyMean [3, 2] :=
  (c3_normalization_fixed_point 1
    [⟨[0, 1], [5, 3], [0, 0], [0, 1], [3, 6], [0, 0]⟩,
     ⟨[0, 1], [7, 4], [0, 0], [0, 1], [4, 6], [0, 0]⟩]
    [2, 3] [3, 2]
    (by norm_num)
    (by with_unfolding_all decide) (by with_unfolding_all decide)
    (by with_unfolding_all decide)
    (by with_unfolding_all decide) (by with_unfolding_all decide)
    (by with_unfolding_all decide) (by with_unfolding_all decide)
    (by with_unfolding_all decide) (by with_unfolding_all decide)).1 0
    (by norm_num)

end FVAvg
